import Mathlib

/-!
Verification development for the sports-prediction-agent server
(`src/server.js`).  The definitions below are shallow embeddings of the
server's rate limiter, TTL cache, odds fetcher, game formatter, and the
LLM-response extraction/persistence pipeline.  Times are modelled as
natural-number milliseconds (`Date.now()`); JS `Map`s are modelled as
functions `String → Option _`; fallible operations return `Option` or
`Except`.
-/

namespace SportsAgent

/-! ## Rate limiter (`rateLimitMiddleware`, server.js lines 31-58) -/

def hourInMs : Nat := 60 * 60 * 1000

def maxRequests : Nat := 10

structure RateWindow where
  count : Nat
  resetTime : Nat
deriving DecidableEq

/-- The `requestTracker` map keyed by client IP. -/
def TrackerMap : Type := String → Option RateWindow

/-- `next` models calling `next()` (request permitted); `deny k` models the
HTTP 429 response reporting `k` whole minutes left until the window resets. -/
inductive RLDecision where
  | next : RLDecision
  | deny (minutesLeft : Nat) : RLDecision
deriving DecidableEq

/-- One call of `rateLimitMiddleware` for client `ip` at time `now`:
returns the decision and the tracker map after the call. -/
def rateLimitMiddleware (ip : String) (now : Nat) (m : TrackerMap) :
    RLDecision × TrackerMap :=
  match m ip with
  | none =>
    (RLDecision.next, fun k => if k = ip then some ⟨1, now + hourInMs⟩ else m k)
  | some tracker =>
    if now > tracker.resetTime then
      (RLDecision.next, fun k => if k = ip then some ⟨1, now + hourInMs⟩ else m k)
    else if tracker.count ≥ maxRequests then
      (RLDecision.deny ((tracker.resetTime - now + 59999) / 60000), m)
    else
      (RLDecision.next,
       fun k => if k = ip then some ⟨tracker.count + 1, tracker.resetTime⟩ else m k)

/-- A sequence of middleware calls for one client at the given times. -/
def runRL (ip : String) : List Nat → TrackerMap → List RLDecision × TrackerMap
  | [], m => ([], m)
  | t :: ts, m =>
    let step := rateLimitMiddleware ip t m
    let rest := runRL ip ts step.2
    (step.1 :: rest.1, rest.2)

lemma runRL_append (ip : String) (l1 l2 : List Nat) (m : TrackerMap) :
    runRL ip (l1 ++ l2) m =
      ((runRL ip l1 m).1 ++ (runRL ip l2 (runRL ip l1 m).2).1,
       (runRL ip l2 (runRL ip l1 m).2).2) := by
  induction l1 generalizing m with
  | nil => simp [runRL]
  | cons t ts ih => simp [runRL, ih]

lemma rateLimitMiddleware_fresh (ip : String) (now : Nat) (m : TrackerMap)
    (h : m ip = none) :
    rateLimitMiddleware ip now m =
      (RLDecision.next, fun k => if k = ip then some ⟨1, now + hourInMs⟩ else m k) := by
  simp [rateLimitMiddleware, h]

lemma rateLimitMiddleware_incr (ip : String) (now : Nat) (m : TrackerMap)
    (c r : Nat) (h : m ip = some ⟨c, r⟩) (hnow : ¬ now > r) (hc : c < maxRequests) :
    rateLimitMiddleware ip now m =
      (RLDecision.next, fun k => if k = ip then some ⟨c + 1, r⟩ else m k) := by
  simp [rateLimitMiddleware, h, hnow, Nat.not_le.mpr hc]

lemma rateLimitMiddleware_deny (ip : String) (now : Nat) (m : TrackerMap)
    (c r : Nat) (h : m ip = some ⟨c, r⟩) (hnow : ¬ now > r) (hc : maxRequests ≤ c) :
    rateLimitMiddleware ip now m =
      (RLDecision.deny ((r - now + 59999) / 60000), m) := by
  simp [rateLimitMiddleware, h, hnow, hc]

/-- Invariant run: while the key's window entry is `⟨c, t0 + hourInMs⟩` and every
request time is strictly inside the window and the count stays below the cap,
every request is permitted and the count advances by one per request. -/
lemma runRL_steady (ip : String) (t0 : Nat) :
    ∀ (ts : List Nat) (c : Nat) (m : TrackerMap),
      (∀ t ∈ ts, t < t0 + hourInMs) → c + ts.length ≤ maxRequests →
      m ip = some ⟨c, t0 + hourInMs⟩ →
      (runRL ip ts m).1 = List.replicate ts.length RLDecision.next ∧
      (runRL ip ts m).2 ip = some ⟨c + ts.length, t0 + hourInMs⟩ := by
  intro ts
  induction ts with
  | nil => intro c m _ _ hm; simpa [runRL] using hm
  | cons t ts ih =>
    intro c m hts hlen hm
    have ht : t < t0 + hourInMs := hts t (by simp)
    have hc : c < maxRequests := by
      simp only [List.length_cons] at hlen; omega
    have hstep := rateLimitMiddleware_incr ip t m c (t0 + hourInMs) hm
      (by omega) hc
    have hm' : (rateLimitMiddleware ip t m).2 ip = some ⟨c + 1, t0 + hourInMs⟩ := by
      rw [hstep]; simp
    have hrest := ih (c + 1) (rateLimitMiddleware ip t m).2
      (fun u hu => hts u (by simp [hu])) (by simp only [List.length_cons] at hlen; omega) hm'
    have hd : (rateLimitMiddleware ip t m).1 = RLDecision.next := by rw [hstep]
    refine ⟨?_, ?_⟩
    · show (rateLimitMiddleware ip t m).1 :: (runRL ip ts (rateLimitMiddleware ip t m).2).1 = _
      rw [hd, hrest.1]
      simp [List.replicate_succ]
    · show (runRL ip ts (rateLimitMiddleware ip t m).2).2 ip = _
      rw [hrest.2]
      simp only [List.length_cons]
      exact congrArg some (by congr 1; omega)

/-- C1: For every client key, under the fixed window (maxRequests = 10, window
length = 1 hour): the first request for a key records count = 1 and is
permitted; each subsequent request arriving before resetAt with
count < maxRequests increments count and is permitted; once count has reached
maxRequests, any further request before resetAt is denied with HTTP 429 (the
`deny` decision).  In particular the N-th request within a window
(N = maxRequests) is allowed and the (N+1)-th is denied. -/
theorem C1_fixed_window_limiter :
    (∀ (ip : String) (now : Nat) (m : TrackerMap), m ip = none →
        (rateLimitMiddleware ip now m).1 = RLDecision.next ∧
        (rateLimitMiddleware ip now m).2 ip = some ⟨1, now + hourInMs⟩) ∧
    (∀ (ip : String) (now : Nat) (m : TrackerMap) (c r : Nat),
        m ip = some ⟨c, r⟩ → now < r → c < maxRequests →
        (rateLimitMiddleware ip now m).1 = RLDecision.next ∧
        (rateLimitMiddleware ip now m).2 ip = some ⟨c + 1, r⟩) ∧
    (∀ (ip : String) (now : Nat) (m : TrackerMap) (c r : Nat),
        m ip = some ⟨c, r⟩ → now < r → maxRequests ≤ c →
        (rateLimitMiddleware ip now m).1 =
          RLDecision.deny ((r - now + 59999) / 60000)) ∧
    (∀ (ip : String) (t0 : Nat) (ts : List Nat) (m : TrackerMap),
        m ip = none → ts.length = maxRequests →
        (∀ t ∈ ts, t < t0 + hourInMs) →
        ∃ k, (runRL ip (t0 :: ts) m).1 =
          List.replicate maxRequests RLDecision.next ++ [RLDecision.deny k]) := by
  refine ⟨?_, ?_, ?_, ?_⟩
  · intro ip now m h
    rw [rateLimitMiddleware_fresh ip now m h]
    simp
  · intro ip now m c r h hnow hc
    rw [rateLimitMiddleware_incr ip now m c r h (by omega) hc]
    simp
  · intro ip now m c r h hnow hc
    rw [rateLimitMiddleware_deny ip now m c r h (by omega) hc]
  · intro ip t0 ts m hm hlen hts
    -- split the ten in-window requests into the first nine and the last one
    have hsplit : ts.take 9 ++ ts.drop 9 = ts := List.take_append_drop 9 ts
    have hd9 : (ts.drop 9).length = 1 := by
      rw [List.length_drop, hlen]; decide
    obtain ⟨tl, htl⟩ := List.length_eq_one.mp hd9
    have hm1 : (rateLimitMiddleware ip t0 m).2 ip = some ⟨1, t0 + hourInMs⟩ := by
      rw [rateLimitMiddleware_fresh ip t0 m hm]; simp
    have htake : ∀ t ∈ ts.take 9, t < t0 + hourInMs :=
      fun t h => hts t (List.mem_of_mem_take h)
    have hlen9 : (ts.take 9).length = 9 := by
      rw [List.length_take, hlen]; decide
    have hsteady := runRL_steady ip t0 (ts.take 9) 1
      (rateLimitMiddleware ip t0 m).2 htake (by rw [hlen9]; decide) hm1
    have htlmem : tl ∈ ts := by
      have : tl ∈ ts.drop 9 := by rw [htl]; simp
      exact (List.drop_sublist 9 ts).subset this
    have htlt : tl < t0 + hourInMs := hts tl htlmem
    have hm2 := hsteady.2
    rw [hlen9] at hm2
    have hlast := rateLimitMiddleware_deny ip tl
      ((runRL ip (ts.take 9) (rateLimitMiddleware ip t0 m).2).2) (1 + 9) (t0 + hourInMs)
      hm2 (by omega) (by decide)
    have hd0 : (rateLimitMiddleware ip t0 m).1 = RLDecision.next := by
      rw [rateLimitMiddleware_fresh ip t0 m hm]
    refine ⟨(t0 + hourInMs - tl + 59999) / 60000, ?_⟩
    show (rateLimitMiddleware ip t0 m).1 :: (runRL ip ts (rateLimitMiddleware ip t0 m).2).1 = _
    conv_lhs => rw [← hsplit, htl]
    rw [hd0, runRL_append]
    show RLDecision.next ::
      ((runRL ip (ts.take 9) (rateLimitMiddleware ip t0 m).2).1 ++
        (runRL ip [tl] ((runRL ip (ts.take 9) (rateLimitMiddleware ip t0 m).2).2)).1) = _
    have hsingle :
        (runRL ip [tl] ((runRL ip (ts.take 9) (rateLimitMiddleware ip t0 m).2).2)).1 =
          [RLDecision.deny ((t0 + hourInMs - tl + 59999) / 60000)] := by
      show [(rateLimitMiddleware ip tl
        ((runRL ip (ts.take 9) (rateLimitMiddleware ip t0 m).2).2)).1] = _
      rw [hlast]
    rw [hsteady.1, hlen9, hsingle]
    show RLDecision.next :: (List.replicate 9 RLDecision.next ++ [RLDecision.deny _]) = _
    simp [maxRequests, List.replicate_succ]

/-- Closed witness for C1: a fresh key is admitted with count 1; a key at
count 3 inside the window is incremented and admitted; a key at count 10
inside the window is denied; and a fresh key making 11 requests inside one
window sees 10 permits followed by a denial. -/
theorem C1_fixed_window_limiter_witness :
    ((rateLimitMiddleware "a" 5 (fun _ => none)).1 = RLDecision.next ∧
      (rateLimitMiddleware "a" 5 (fun _ => none)).2 "a" = some ⟨1, 5 + hourInMs⟩) ∧
    ((rateLimitMiddleware "a" 7 (fun k => if k = "a" then some ⟨3, 100⟩ else none)).1 =
        RLDecision.next ∧
      (rateLimitMiddleware "a" 7 (fun k => if k = "a" then some ⟨3, 100⟩ else none)).2 "a" =
        some ⟨4, 100⟩) ∧
    ((rateLimitMiddleware "a" 7 (fun k => if k = "a" then some ⟨10, 100⟩ else none)).1 =
        RLDecision.deny ((100 - 7 + 59999) / 60000)) ∧
    (∃ k, (runRL "a" (0 :: List.replicate 10 1) (fun _ => none)).1 =
        List.replicate maxRequests RLDecision.next ++ [RLDecision.deny k]) :=
  ⟨C1_fixed_window_limiter.1 "a" 5 (fun _ => none) rfl,
   C1_fixed_window_limiter.2.1 "a" 7 (fun k => if k = "a" then some ⟨3, 100⟩ else none)
     3 100 rfl (by decide) (by decide),
   C1_fixed_window_limiter.2.2.1 "a" 7 (fun k => if k = "a" then some ⟨10, 100⟩ else none)
     10 100 rfl (by decide) (by decide),
   C1_fixed_window_limiter.2.2.2 "a" 0 (List.replicate 10 1) (fun _ => none) rfl
     (by decide) (by intro t ht; simp at ht; simp [ht, hourInMs])⟩

/-- C3 counterexample: at the exact boundary `now = resetAt` the code does NOT
start a fresh window.  With a key at count 10 and resetTime 100, a request at
time 100 is denied (429 with 0 minutes left) and the stored entry keeps
count 10 — the claim says it would be permitted with count reset to 1. -/
theorem C3_boundary_counterexample :
    (rateLimitMiddleware "ip" 100
        (fun k => if k = "ip" then some ⟨10, 100⟩ else none)).1 =
      RLDecision.deny 0 ∧
    (rateLimitMiddleware "ip" 100
        (fun k => if k = "ip" then some ⟨10, 100⟩ else none)).2 "ip" =
      some ⟨10, 100⟩ := by
  constructor <;> rfl

/-- C3 (amended): only strictly after the stored resetAt (resetAt < now) does
the limiter treat the key as a fresh window: count is reset to 1, resetAt is
advanced to now + windowLength, and the request is permitted regardless of the
previous count.  At `now = resetAt` the request is still handled under the old
window. -/
theorem C3_window_reset_amended (ip : String) (now : Nat) (m : TrackerMap)
    (c r : Nat) (h : m ip = some ⟨c, r⟩) (hr : r < now) :
    (rateLimitMiddleware ip now m).1 = RLDecision.next ∧
    (rateLimitMiddleware ip now m).2 ip = some ⟨1, now + hourInMs⟩ := by
  simp [rateLimitMiddleware, h, hr]

/-- Witness for C3 (amended): a key exhausted at count 999 whose window ended
at 5 is admitted afresh at time 6. -/
theorem C3_window_reset_amended_witness :
    (rateLimitMiddleware "ip" 6
        (fun k => if k = "ip" then some ⟨999, 5⟩ else none)).1 = RLDecision.next ∧
    (rateLimitMiddleware "ip" 6
        (fun k => if k = "ip" then some ⟨999, 5⟩ else none)).2 "ip" =
      some ⟨1, 6 + hourInMs⟩ :=
  C3_window_reset_amended "ip" 6 (fun k => if k = "ip" then some ⟨999, 5⟩ else none)
    999 5 rfl (by decide)

/-- C10: when the limiter denies a request, the tracker map is left completely
unchanged — the denied key's entry and all other keys keep their prior
values. -/
theorem C10_deny_leaves_state_unchanged (ip : String) (now : Nat)
    (m : TrackerMap) (k : Nat)
    (h : (rateLimitMiddleware ip now m).1 = RLDecision.deny k) :
    (rateLimitMiddleware ip now m).2 = m := by
  rcases hm : m ip with _ | tracker
  · simp [rateLimitMiddleware, hm] at h
  · simp only [rateLimitMiddleware, hm] at h ⊢
    by_cases h1 : now > tracker.resetTime
    · simp [h1] at h
    · by_cases h2 : tracker.count ≥ maxRequests
      · simp [h1, h2]
      · simp [h1, h2] at h

/-- Witness for C10: a denied request at count 10 leaves the map untouched. -/
theorem C10_deny_leaves_state_unchanged_witness :
    (rateLimitMiddleware "a" 50
        (fun k => if k = "a" then some ⟨10, 100⟩ else none)).2 =
      (fun k => if k = "a" then some ⟨10, 100⟩ else none) :=
  C10_deny_leaves_state_unchanged "a" 50
    (fun k => if k = "a" then some ⟨10, 100⟩ else none) 1 rfl

/-! ## TTL cache (`getCached` / `setCache`, server.js lines 60-74) -/

def CACHE_TTL : Nat := 5 * 60 * 1000

structure CacheEntry (α : Type) where
  data : α
  timestamp : Nat

/-- The in-memory `cache` map. -/
def CacheMap (α : Type) : Type := String → Option (CacheEntry α)

/-- `getCached(key)` at time `now` (`Date.now()`): a stored entry is returned
only while its age is strictly below the TTL; otherwise `null` (modelled as
`none`).  Expired entries are not evicted. -/
def getCached {α : Type} (cache : CacheMap α) (key : String) (now : Nat) :
    Option α :=
  match cache key with
  | some c => if now - c.timestamp < CACHE_TTL then some c.data else none
  | none => none

/-- `setCache(key, data)` at time `now`: unconditional overwrite, stamping the
current time. -/
def setCache {α : Type} (cache : CacheMap α) (key : String) (d : α) (now : Nat) :
    CacheMap α :=
  fun k => if k = key then some ⟨d, now⟩ else cache k

/-- C4: a `get` immediately after `set(key, value)` returns exactly the stored
value; a `get` when no entry exists returns absent; and a `get` whose entry's
age (now − storedAt) is ≥ the 5-minute TTL returns absent, with no intervening
`set` required. -/
theorem C4_cache_ttl :
    (∀ (α : Type) (cache : CacheMap α) (key : String) (v : α) (now : Nat),
        getCached (setCache cache key v now) key now = some v) ∧
    (∀ (α : Type) (cache : CacheMap α) (key : String) (now : Nat),
        cache key = none → getCached cache key now = none) ∧
    (∀ (α : Type) (cache : CacheMap α) (key : String) (now : Nat)
        (e : CacheEntry α), cache key = some e → CACHE_TTL ≤ now - e.timestamp →
        getCached cache key now = none) := by
  refine ⟨?_, ?_, ?_⟩
  · intro α cache key v now
    simp [getCached, setCache, CACHE_TTL]
  · intro α cache key now h
    simp [getCached, h]
  · intro α cache key now e h hage
    simp [getCached, h, Nat.not_lt.mpr hage]

/-- Witness for C4: set-then-get returns the value; a missing key reads
absent; an entry exactly TTL old reads absent. -/
theorem C4_cache_ttl_witness :
    getCached (setCache (fun _ => none) "k" (7 : Nat) 1000) "k" 1000 = some 7 ∧
    getCached (fun _ => (none : Option (CacheEntry Nat))) "k" 1000 = none ∧
    getCached (fun k => if k = "k" then some (⟨7, 0⟩ : CacheEntry Nat) else none)
      "k" CACHE_TTL = none :=
  ⟨C4_cache_ttl.1 Nat (fun _ => none) "k" 7 1000,
   C4_cache_ttl.2.1 Nat (fun _ => none) "k" 1000 rfl,
   C4_cache_ttl.2.2 Nat
     (fun k => if k = "k" then some (⟨7, 0⟩ : CacheEntry Nat) else none)
     "k" CACHE_TTL ⟨7, 0⟩ rfl (by decide)⟩

/-! ## Odds fetcher (`fetchOddsData`, server.js lines 115-144) -/

/-- Own members of `Object.prototype`, inherited by a JS bracket lookup on a
plain object literal.  Every one of them has a truthy value (a function, or —
for `__proto__` — the prototype object itself). -/
def protoProps : List String :=
  ["constructor", "hasOwnProperty", "isPrototypeOf", "propertyIsEnumerable",
   "toLocaleString", "toString", "valueOf", "__defineGetter__",
   "__defineSetter__", "__lookupGetter__", "__lookupSetter__", "__proto__"]

/-- Result of the JS bracket lookup `sportMap[sport]` (server.js:124).  The
lookup does not stop at the literal's own keys: a key naming an
`Object.prototype` member yields that inherited member — truthy, so the
`if (!oddsApiSport) throw` guard does not fire — rather than `undefined`. -/
inductive SportLookup where
  | own (providerId : String) : SportLookup
  | inherited : SportLookup
  | undef : SportLookup
deriving DecidableEq

/-- The `sportMap` object literal (server.js:116-122) under JS bracket
lookup, prototype chain included. -/
def sportMap (s : String) : SportLookup :=
  if s = "nba" then SportLookup.own "basketball_nba"
  else if s = "nhl" then SportLookup.own "icehockey_nhl"
  else if s = "cbb" then SportLookup.own "basketball_ncaab"
  else if s = "nfl" then SportLookup.own "americanfootball_nfl"
  else if s = "mlb" then SportLookup.own "baseball_mlb"
  else if s ∈ protoProps then SportLookup.inherited
  else SportLookup.undef

inductive FetchErr where
  | invalidSport : FetchErr
  | upstream (status : Nat) : FetchErr
deriving DecidableEq

/-- Outcome of one `fetchOddsData` call, with an explicit trace of whether the
cache was read and whether the outbound `fetch` was attempted. -/
structure FetchOutcome (α : Type) where
  result : Except FetchErr α
  cacheAfter : CacheMap α
  cacheChecked : Bool
  networkCalled : Bool

/-- `fetchOddsData(sport)` at time `now`.  `net` models the outbound HTTP GET
(the looked-up provider id only feeds the request URL, which `net`
abstracts): `Except.error status` is a non-ok response, `Except.ok data` the
parsed JSON body.  Only an `undefined` (falsy) lookup result triggers the
`throw new Error('Invalid sport')`; a truthy inherited member proceeds to the
cache and the fetch like an own key. -/
def fetchOddsData {α : Type} (sport : String) (now : Nat) (cache : CacheMap α)
    (net : Unit → Except Nat α) : FetchOutcome α :=
  match sportMap sport with
  | SportLookup.undef => ⟨Except.error FetchErr.invalidSport, cache, false, false⟩
  | _ =>
    match getCached cache ("odds_" ++ sport) now with
    | some d => ⟨Except.ok d, cache, true, false⟩
    | none =>
      match net () with
      | Except.error st => ⟨Except.error (FetchErr.upstream st), cache, true, true⟩
      | Except.ok d => ⟨Except.ok d, setCache cache ("odds_" ++ sport) d now, true, true⟩

/-- C8 counterexample: the sport code "constructor" is outside
{nba, nhl, cbb, nfl, mlb}, yet `sportMap['constructor']` is the inherited
(truthy) `Object.prototype.constructor`, so the fetcher does not fail with
the invalid-sport error: it consults the cache and attempts the outbound
call. -/
theorem C8_proto_key_counterexample :
    "constructor" ∉ (["nba", "nhl", "cbb", "nfl", "mlb"] : List String) ∧
    (fetchOddsData "constructor" 0 (fun _ => (none : Option (CacheEntry Nat)))
        (fun _ => Except.ok 7)).result = Except.ok 7 ∧
    (fetchOddsData "constructor" 0 (fun _ => (none : Option (CacheEntry Nat)))
        (fun _ => Except.ok 7)).cacheChecked = true ∧
    (fetchOddsData "constructor" 0 (fun _ => (none : Option (CacheEntry Nat)))
        (fun _ => Except.ok 7)).networkCalled = true :=
  ⟨by decide, rfl, rfl, rfl⟩

/-- C8 (amended): for every sport code outside {nba, nhl, cbb, nfl, mlb} that
is also not the name of an inherited `Object.prototype` member (such as
"constructor", "toString", "__proto__"), `fetchOddsData` fails immediately
with the invalid-sport error, before consulting the cache and before any
outbound network call; the cache is untouched.  (For the prototype-member
names the lookup is truthy and the fetcher proceeds — see the
counterexample.) -/
theorem C8_invalid_sport_fails_fast_amended (α : Type) (sport : String)
    (now : Nat) (cache : CacheMap α) (net : Unit → Except Nat α)
    (h : sport ∉ (["nba", "nhl", "cbb", "nfl", "mlb"] : List String))
    (hp : sport ∉ protoProps) :
    (fetchOddsData sport now cache net).result = Except.error FetchErr.invalidSport ∧
    (fetchOddsData sport now cache net).cacheChecked = false ∧
    (fetchOddsData sport now cache net).networkCalled = false ∧
    (fetchOddsData sport now cache net).cacheAfter = cache := by
  simp only [List.mem_cons, List.mem_singleton, not_or] at h
  obtain ⟨h1, h2, h3, h4, h5, -⟩ := h
  have hmap : sportMap sport = SportLookup.undef := by
    simp [sportMap, h1, h2, h3, h4, h5, hp]
  simp [fetchOddsData, hmap]

/-- Witness for C8 (amended): the unrecognized code "xyz" (not a prototype
member either) fails fast with no cache read and no network call. -/
theorem C8_invalid_sport_fails_fast_amended_witness :
    (fetchOddsData "xyz" 0 (fun _ => (none : Option (CacheEntry Nat)))
        (fun _ => Except.ok 0)).result = Except.error FetchErr.invalidSport ∧
    (fetchOddsData "xyz" 0 (fun _ => (none : Option (CacheEntry Nat)))
        (fun _ => Except.ok 0)).cacheChecked = false ∧
    (fetchOddsData "xyz" 0 (fun _ => (none : Option (CacheEntry Nat)))
        (fun _ => Except.ok 0)).networkCalled = false ∧
    (fetchOddsData "xyz" 0 (fun _ => (none : Option (CacheEntry Nat)))
        (fun _ => Except.ok 0)).cacheAfter = (fun _ => none) :=
  C8_invalid_sport_fails_fast_amended Nat "xyz" 0 (fun _ => none)
    (fun _ => Except.ok 0) (by decide) (by decide)

/-! ## Game formatter (`gamesFormatted`, server.js lines 161-176)

Provider records.  Numeric odds values are modelled as rationals; an absent
nested field is `none`.  A missing or empty `outcomes`/`markets`/`bookmakers`
array behaves identically under the optional-chaining in the source, so lists
suffice. -/

structure Outcome where
  name : String
  price : Option Rat
  point : Option Rat

structure Market where
  key : String
  outcomes : List Outcome

structure Bookmaker where
  markets : List Market

structure RawGame where
  home_team : String
  away_team : String
  commence_time : String
  bookmakers : List Bookmaker

/-- Formatted game handed to the oracle prompt.  `none` models the string
sentinel `'N/A'`. -/
structure FormattedGame where
  homeTeam : String
  awayTeam : String
  gameTime : String
  spread : Option Rat
  total : Option Rat
  moneylineHome : Option Rat
  moneylineAway : Option Rat

/-- JS `expr || 'N/A'`: an absent value, or the falsy number 0, becomes the
sentinel. -/
def jsOrNA (x : Option Rat) : Option Rat :=
  match x with
  | some v => if v = 0 then none else some v
  | none => none

/-- `game.bookmakers?.[0]?.markets?.find(m => m.key === k)` -/
def findMarket (g : RawGame) (k : String) : Option Market :=
  g.bookmakers.head?.bind fun b => b.markets.find? fun m => m.key == k

/-- `spreads?.outcomes?.[0]?.point` -/
def spreadChain (g : RawGame) : Option Rat :=
  ((findMarket g "spreads").bind fun m => m.outcomes.head?).bind fun o => o.point

/-- `totals?.outcomes?.[0]?.point` -/
def totalChain (g : RawGame) : Option Rat :=
  ((findMarket g "totals").bind fun m => m.outcomes.head?).bind fun o => o.point

/-- `h2h?.outcomes?.find(o => o.name === game.home_team)?.price` -/
def mlHomeChain (g : RawGame) : Option Rat :=
  ((findMarket g "h2h").bind fun m =>
    m.outcomes.find? fun o => o.name == g.home_team).bind fun o => o.price

/-- `h2h?.outcomes?.find(o => o.name === game.away_team)?.price` -/
def mlAwayChain (g : RawGame) : Option Rat :=
  ((findMarket g "h2h").bind fun m =>
    m.outcomes.find? fun o => o.name == g.away_team).bind fun o => o.price

/-- The per-game body of `oddsData.slice(0, 10).map(game => ...)`. -/
def formatGame (g : RawGame) : FormattedGame where
  homeTeam := g.home_team
  awayTeam := g.away_team
  gameTime := g.commence_time
  spread := jsOrNA (spreadChain g)
  total := jsOrNA (totalChain g)
  moneylineHome := jsOrNA (mlHomeChain g)
  moneylineAway := jsOrNA (mlAwayChain g)

/-- `gamesFormatted` including the `slice(0, 10)` cap. -/
def gamesFormatted (oddsData : List RawGame) : List FormattedGame :=
  (oddsData.take 10).map formatGame

/-- C6 counterexample: a raw game whose first spread outcome carries the
present point value 0 (a pick-em line).  The claim says the formatter extracts
that point; the code's `|| 'N/A'` treats the falsy 0 as missing and emits the
sentinel instead. -/
theorem C6_zero_point_counterexample :
    spreadChain
        ⟨"H", "A", "T", [⟨[⟨"spreads", [⟨"H", none, some 0⟩]⟩]⟩]⟩ = some 0 ∧
    (formatGame
        ⟨"H", "A", "T", [⟨[⟨"spreads", [⟨"H", none, some 0⟩]⟩]⟩]⟩).spread = none := by
  constructor <;> rfl

/-- C6 (amended): for every raw game the formatter selects the first
bookmaker's markets and reads the first spread outcome's point, the first
total outcome's point, and the moneyline price whose outcome name exactly
equals the provider team-name field; an absent nested field — and also a
present value equal to 0, through the JS falsy `||` — yields the 'N/A'
sentinel, while any other present value is passed through; the formatter is a
total function (a request never fails on a missing field) returning one entry
per game up to the cap of 10. -/
theorem C6_formatter_amended :
    (∀ g : RawGame,
      (spreadChain g = none ∨ spreadChain g = some 0 →
        (formatGame g).spread = none) ∧
      (∀ p : Rat, spreadChain g = some p → p ≠ 0 → (formatGame g).spread = some p) ∧
      (totalChain g = none ∨ totalChain g = some 0 →
        (formatGame g).total = none) ∧
      (∀ p : Rat, totalChain g = some p → p ≠ 0 → (formatGame g).total = some p) ∧
      (mlHomeChain g = none ∨ mlHomeChain g = some 0 →
        (formatGame g).moneylineHome = none) ∧
      (∀ p : Rat, mlHomeChain g = some p → p ≠ 0 →
        (formatGame g).moneylineHome = some p) ∧
      (mlAwayChain g = none ∨ mlAwayChain g = some 0 →
        (formatGame g).moneylineAway = none) ∧
      (∀ p : Rat, mlAwayChain g = some p → p ≠ 0 →
        (formatGame g).moneylineAway = some p)) ∧
    (∀ oddsData : List RawGame,
      (gamesFormatted oddsData).length = min 10 oddsData.length) := by
  constructor
  · intro g
    refine ⟨?_, ?_, ?_, ?_, ?_, ?_, ?_, ?_⟩ <;>
      first
        | (rintro (h | h) <;> simp [formatGame, jsOrNA, h])
        | (intro p hp hne; simp [formatGame, jsOrNA, hp, hne])
  · intro oddsData
    simp [gamesFormatted]

/-- Witness for C6 (amended): a game with spread point -5, total 224, and
home moneyline -110 is formatted with those values; one with no bookmakers
formats to all sentinels. -/
theorem C6_formatter_amended_witness :
    (formatGame ⟨"H", "A", "T",
        [⟨[⟨"spreads", [⟨"H", none, some (-5)⟩]⟩,
           ⟨"totals", [⟨"o", none, some 224⟩]⟩,
           ⟨"h2h", [⟨"H", some (-110), none⟩]⟩]⟩]⟩).spread = some (-5) ∧
    (formatGame ⟨"H", "A", "T",
        [⟨[⟨"spreads", [⟨"H", none, some (-5)⟩]⟩,
           ⟨"totals", [⟨"o", none, some 224⟩]⟩,
           ⟨"h2h", [⟨"H", some (-110), none⟩]⟩]⟩]⟩).total = some 224 ∧
    (formatGame ⟨"H", "A", "T",
        [⟨[⟨"spreads", [⟨"H", none, some (-5)⟩]⟩,
           ⟨"totals", [⟨"o", none, some 224⟩]⟩,
           ⟨"h2h", [⟨"H", some (-110), none⟩]⟩]⟩]⟩).moneylineHome = some (-110) ∧
    (formatGame ⟨"H", "A", "T", []⟩).spread = none ∧
    (gamesFormatted [⟨"H", "A", "T", []⟩]).length = min 10 1 :=
  ⟨(C6_formatter_amended.1 _).2.1 (-5) (by decide) (by decide),
   (C6_formatter_amended.1 _).2.2.2.1 224 (by decide) (by decide),
   (C6_formatter_amended.1 _).2.2.2.2.2.1 (-110) (by decide) (by decide),
   (C6_formatter_amended.1 _).1 (Or.inl (by decide)),
   C6_formatter_amended.2 [⟨"H", "A", "T", []⟩]⟩

/-! ## Response extraction (handler lines 233-241)

Text is modelled as `List Char`.  Special characters that the source writes
literally are named (backtick U+0060, braces U+007B/U+007D). -/

def cBT : Char := Char.ofNat 96

def cLB : Char := Char.ofNat 123

def cRB : Char := Char.ofNat 125

/-- ASCII part of the JS regex class `\s` / `String.prototype.trim`
whitespace (space, tab, LF, CR, VT, FF; non-ASCII whitespace idealized
away). -/
def isWsJS (c : Char) : Bool :=
  (c == ' ') || (c == '\t') || (c == '\n') || (c == '\r') ||
    (c == Char.ofNat 11) || (c == Char.ofNat 12)

/-- Greedy `\s*`. -/
def dropWs (s : List Char) : List Char := s.dropWhile isWsJS

/-- `String.prototype.trim`. -/
def trimChars (s : List Char) : List Char :=
  ((s.dropWhile isWsJS).reverse.dropWhile isWsJS).reverse

def tickPat : List Char := [cBT, cBT, cBT]

def jsonPat : List Char := cBT :: cBT :: cBT :: 'j' :: 's' :: 'o' :: 'n' :: []

/-- Global empty-replacement of the regex `<pat>\s*` (literal pattern followed
by a greedy whitespace run), scanning left to right exactly as
`String.prototype.replace(/pat\s*?/g, '')` does for a literal pattern: at each
position, either the pattern (plus trailing whitespace) is consumed and
removed, or one character is copied.  `fuel` is consumed once per step; a
fuel of `s.length` always suffices. -/
def replTickF (pat : List Char) : Nat → List Char → List Char
  | 0, s => s
  | _, [] => []
  | f + 1, c :: rest =>
    if pat.isPrefixOf (c :: rest) then
      replTickF pat f (dropWs (List.drop pat.length (c :: rest)))
    else
      c :: replTickF pat f rest

/-- `.replace(/```json\s*?/g, '')` (the source's first fence-stripping pass,
with `\s*` greedy as in the source). -/
def stripTicksJson (s : List Char) : List Char := replTickF jsonPat s.length s

/-- `.replace(/```\s*?/g, '')` (the second pass). -/
def stripTicks (s : List Char) : List Char := replTickF tickPat s.length s

/-- Lines 233-236: trim, then strip fence markers globally when the trimmed
text starts with a triple backtick. -/
def preprocess (raw : List Char) : List Char :=
  if tickPat.isPrefixOf (trimChars raw) then
    stripTicks (stripTicksJson (trimChars raw))
  else trimChars raw

/-- Line 238: `jsonText.match(/\x7b[\s\S]*\x7d/)` — the span from the first
left brace through the last right brace, `none` when there is no such span. -/
def extractSpan (s : List Char) : Option (List Char) :=
  match s.dropWhile (fun c => c != cLB) with
  | [] => none
  | c :: rest =>
    match (c :: rest).reverse.dropWhile (fun d => d != cRB) with
    | [] => none
    | d :: rev => some (d :: rev).reverse

/-! ### JSON values and `JSON.parse`

JSON numbers are modelled exactly as rationals (the float rounding of the
runtime is idealized away; no claim depends on it). -/

inductive Json where
  | null : Json
  | bool (b : Bool) : Json
  | num (q : Rat) : Json
  | str (s : String) : Json
  | arr (elems : List Json) : Json
  | obj (members : List (String × Json)) : Json

/-- JSON-grammar whitespace (ECMA-404: space, tab, LF, CR only). -/
def isWsJson (c : Char) : Bool :=
  (c == ' ') || (c == '\t') || (c == '\n') || (c == '\r')

def skipWsJ (s : List Char) : List Char := s.dropWhile isWsJson

def escMap (e : Char) : Option Char :=
  if e = '"' then some '"'
  else if e = '\\' then some '\\'
  else if e = '/' then some '/'
  else if e = 'b' then some (Char.ofNat 8)
  else if e = 'f' then some (Char.ofNat 12)
  else if e = 'n' then some '\n'
  else if e = 'r' then some '\r'
  else if e = 't' then some '\t'
  else none

def hexDigitVal (c : Char) : Option Nat :=
  if c.isDigit then some (c.toNat - 48)
  else if 'a' ≤ c ∧ c ≤ 'f' then some (c.toNat - 87)
  else if 'A' ≤ c ∧ c ≤ 'F' then some (c.toNat - 55)
  else none

/-- Body of a JSON string after the opening quote: returns the decoded
characters and the remainder after the closing quote. -/
def parseStringBody : Nat → List Char → Option (List Char × List Char)
  | 0, _ => none
  | f + 1, s =>
    match s with
    | [] => none
    | c :: rest =>
      if c = '"' then some ([], rest)
      else if c = '\\' then
        match rest with
        | [] => none
        | e :: rest2 =>
          if e = 'u' then
            match rest2 with
            | h1 :: h2 :: h3 :: h4 :: rest3 =>
              match hexDigitVal h1, hexDigitVal h2, hexDigitVal h3, hexDigitVal h4 with
              | some v1, some v2, some v3, some v4 =>
                (match parseStringBody f rest3 with
                 | some (cs, r) =>
                   some (Char.ofNat (((v1 * 16 + v2) * 16 + v3) * 16 + v4) :: cs, r)
                 | none => none)
              | _, _, _, _ => none
            | _ => none
          else
            match escMap e with
            | some ec =>
              (match parseStringBody f rest2 with
               | some (cs, r) => some (ec :: cs, r)
               | none => none)
            | none => none
      else if c.toNat < 32 then none
      else
        match parseStringBody f rest with
        | some (cs, r) => some (c :: cs, r)
        | none => none

def digitsToNat (ds : List Char) : Nat :=
  ds.foldl (fun a c => a * 10 + (c.toNat - 48)) 0

/-- Optional fraction part `.digits`. -/
def parseFrac (s : List Char) : Option (List Char × List Char) :=
  match s with
  | c :: rest =>
    if c = '.' then
      let ds := rest.takeWhile Char.isDigit
      if ds = [] then none else some (ds, rest.drop ds.length)
    else some ([], s)
  | [] => some ([], s)

def expDigits (sign : Int) (s : List Char) : Option (Int × List Char) :=
  let ds := s.takeWhile Char.isDigit
  if ds = [] then none else some (sign * (digitsToNat ds : Int), s.drop ds.length)

/-- Optional exponent part `e[+-]digits`. -/
def parseExp (s : List Char) : Option (Int × List Char) :=
  match s with
  | c :: rest =>
    if c = 'e' ∨ c = 'E' then
      match rest with
      | d :: rr =>
        if d = '+' then expDigits 1 rr
        else if d = '-' then expDigits (-1) rr
        else expDigits 1 rest
      | [] => none
    else some (0, s)
  | [] => some (0, s)

/-- Unsigned JSON number (strict grammar: no leading zeros). -/
def parseNumberCore (s : List Char) : Option (Rat × List Char) :=
  let intDs := s.takeWhile Char.isDigit
  if intDs = [] then none
  else if 1 < intDs.length ∧ intDs.head? = some '0' then none
  else
    match parseFrac (s.drop intDs.length) with
    | none => none
    | some (fracDs, s3) =>
      match parseExp s3 with
      | none => none
      | some (e, s4) =>
        let scale : Nat := 10 ^ fracDs.length
        let base : Rat := ((digitsToNat intDs * scale + digitsToNat fracDs : Nat) : Rat) / (scale : Rat)
        some ((if 0 ≤ e then base * ((10 : Rat) ^ e.toNat) else base / ((10 : Rat) ^ (-e).toNat)), s4)

def parseNumber (s : List Char) : Option (Rat × List Char) :=
  match s with
  | c :: rest =>
    if c = '-' then
      match parseNumberCore rest with
      | some (q, r) => some (-q, r)
      | none => none
    else parseNumberCore s
  | [] => none

mutual

/-- One JSON value at the head of the input (no leading whitespace). -/
def parseValueF : Nat → List Char → Option (Json × List Char)
  | 0, _ => none
  | f + 1, s =>
    match s with
    | 'n' :: 'u' :: 'l' :: 'l' :: r => some (Json.null, r)
    | 't' :: 'r' :: 'u' :: 'e' :: r => some (Json.bool true, r)
    | 'f' :: 'a' :: 'l' :: 's' :: 'e' :: r => some (Json.bool false, r)
    | c :: rest =>
      if c = '"' then
        match parseStringBody (rest.length + 1) rest with
        | some (cs, r) => some (Json.str (String.mk cs), r)
        | none => none
      else if c = cLB then
        (match skipWsJ rest with
         | d :: s2 =>
           if d = cRB then some (Json.obj [], s2)
           else parseMembersF f (skipWsJ rest) []
         | [] => none)
      else if c = '[' then
        (match skipWsJ rest with
         | d :: s2 =>
           if d = ']' then some (Json.arr [], s2)
           else parseElemsF f (skipWsJ rest) []
         | [] => none)
      else if c = '-' ∨ c.isDigit then
        match parseNumber s with
        | some (q, r) => some (Json.num q, r)
        | none => none
      else none
    | [] => none

/-- Members of a JSON object after `{` and leading whitespace, accumulating
parsed members in order. -/
def parseMembersF : Nat → List Char → List (String × Json) → Option (Json × List Char)
  | 0, _, _ => none
  | f + 1, s, acc =>
    match s with
    | c :: rest =>
      if c = '"' then
        match parseStringBody (rest.length + 1) rest with
        | none => none
        | some (key, r1) =>
          match skipWsJ r1 with
          | ':' :: r2 =>
            (match parseValueF f (skipWsJ r2) with
             | none => none
             | some (v, r3) =>
               match skipWsJ r3 with
               | ',' :: r4 => parseMembersF f (skipWsJ r4) (acc ++ [(String.mk key, v)])
               | d :: r4 =>
                 if d = cRB then some (Json.obj (acc ++ [(String.mk key, v)]), r4)
                 else none
               | [] => none)
          | _ => none
      else none
    | [] => none

/-- Elements of a JSON array after `[` and leading whitespace. -/
def parseElemsF : Nat → List Char → List Json → Option (Json × List Char)
  | 0, _, _ => none
  | f + 1, s, acc =>
    match parseValueF f s with
    | none => none
    | some (v, r1) =>
      match skipWsJ r1 with
      | ',' :: r2 => parseElemsF f (skipWsJ r2) (acc ++ [v])
      | d :: r2 => if d = ']' then some (Json.arr (acc ++ [v]), r2) else none
      | [] => none

end

/-- `JSON.parse`: optional surrounding whitespace around a single value. -/
def jsonParse (s : List Char) : Option Json :=
  match parseValueF (4 * s.length + 16) (skipWsJ s) with
  | some (v, r) => if skipWsJ r = [] then some v else none
  | none => none

/-- Property access `data.k` on a parsed value (duplicate keys: last wins, as
in a JS object built by `JSON.parse`). -/
def Json.getField (j : Json) (k : String) : Option Json :=
  match j with
  | Json.obj members =>
    members.foldl (fun acc p => if p.1 = k then some p.2 else acc) none
  | _ => none

/-- Lines 233-241: trim/strip fences, locate the brace span, `JSON.parse` it.
`Except.error` carries the message of the thrown error (line 239) or the
`JSON.parse` SyntaxError swallowed by the route's catch. -/
def extract (raw : List Char) : Except String Json :=
  match extractSpan (preprocess raw) with
  | none => Except.error "No JSON found in response"
  | some sp =>
    match jsonParse sp with
    | none => Except.error "JSON.parse SyntaxError"
    | some v => Except.ok v

/-! ## Persistence and response (`savePrediction` lines 77-112, handler
lines 243-248) -/

/-- `savePrediction`: the whole body is wrapped in try/catch and the catch
only logs, so the function returns normally whatever the database does.
`db` models `pool.query` (`Except.error` = a rejected insert). -/
def savePrediction (db : String → Json → Except String Nat) (sport : String)
    (game : Json) : Unit :=
  match db sport game with
  | Except.ok _ => ()
  | Except.error _ => ()

inductive HandlerResp where
  | success (body : Json) : HandlerResp
  | errorResp (status : Nat) (msg : String) : HandlerResp

/-- JS `for (const game of data.games)`: arrays iterate their elements and
strings iterate their characters (as single-character strings); any other
value — or an absent field — throws a TypeError, caught by the route's catch
block as a 500. -/
def gamesIterable : Option Json → Option (List Json)
  | some (Json.arr xs) => some xs
  | some (Json.str s) => some (s.toList.map fun c => Json.str (String.mk [c]))
  | _ => none

/-- The tail of the `/api/predictions` handler from the oracle's text
onwards: extract/parse (lines 233-241), iterate `data.games` saving each game
(lines 243-246), respond with `res.json(data)` (line 248); every thrown error
is converted to a 500 by the catch block (lines 250-253). -/
def handlerTail (db : String → Json → Except String Nat) (sport : String)
    (textContent : List Char) : HandlerResp :=
  match extract textContent with
  | Except.error msg => HandlerResp.errorResp 500 msg
  | Except.ok data =>
    match gamesIterable (data.getField "games") with
    | none => HandlerResp.errorResp 500 "data.games is not iterable"
    | some games =>
      let _ := games.map (savePrediction db sport)
      HandlerResp.success data

/-- C2 counterexample: the oracle text `{"games": []}` parses to an object
with a `games` list but no `lastUpdated` and no `sport`; the handler returns
it to the caller (and would hand each game to the persistence sink) instead
of rejecting it. -/
theorem C2_missing_fields_counterexample :
    handlerTail (fun _ _ => Except.ok 1) "nba" ("\x7b\"games\": []\x7d".toList) =
      HandlerResp.success (Json.obj [("games", Json.arr [])]) ∧
    (Json.obj [("games", Json.arr [])]).getField "lastUpdated" = none ∧
    (Json.obj [("games", Json.arr [])]).getField "sport" = none := by
  refine ⟨?_, rfl, rfl⟩
  rfl

/-- C2 (amended): after JSON parsing succeeds the handler validates nothing
but the iterability of `data.games`: when `data.games` is absent or not
iterable (not an array and not a string) the `for...of` throws and the
request fails with a 500; when it is iterable the parsed object is returned
to the caller and handed to the persistence sink as-is — `lastUpdated` and
`sport` are never checked. -/
theorem C2_games_validation_amended :
    (∀ (db : String → Json → Except String Nat) (sport : String)
        (text : List Char) (data : Json),
        extract text = Except.ok data →
        gamesIterable (data.getField "games") = none →
        handlerTail db sport text =
          HandlerResp.errorResp 500 "data.games is not iterable") ∧
    (∀ (db : String → Json → Except String Nat) (sport : String)
        (text : List Char) (data : Json) (games : List Json),
        extract text = Except.ok data →
        gamesIterable (data.getField "games") = some games →
        handlerTail db sport text = HandlerResp.success data) := by
  constructor
  · intro db sport text data h1 h2
    simp [handlerTail, h1, h2]
  · intro db sport text data games h1 h2
    simp [handlerTail, h1, h2]

/-- Witness for C2 (amended): an object whose `games` is a number yields a
500; an object with an empty `games` array is returned. -/
theorem C2_games_validation_amended_witness :
    handlerTail (fun _ _ => Except.ok 1) "nba" ("\x7b\"games\": true\x7d".toList) =
      HandlerResp.errorResp 500 "data.games is not iterable" ∧
    handlerTail (fun _ _ => Except.ok 1) "nhl" ("\x7b\"games\": [], \"x\": true\x7d".toList) =
      HandlerResp.success (Json.obj [("games", Json.arr []), ("x", Json.bool true)]) :=
  ⟨C2_games_validation_amended.1 (fun _ _ => Except.ok 1) "nba" _
      (Json.obj [("games", Json.bool true)]) rfl rfl,
   C2_games_validation_amended.2 (fun _ _ => Except.ok 1) "nhl" _
      (Json.obj [("games", Json.arr []), ("x", Json.bool true)]) [] rfl rfl⟩

/-- C9: a failure of the persistence write never fails the overall request:
`savePrediction` swallows every database error (its try/catch only logs), the
handler's response does not depend on the database at all, and for a
validated bundle the already-computed predictions are returned with a success
response whatever the writes did. -/
theorem C9_persistence_failure_swallowed :
    (∀ (db : String → Json → Except String Nat) (sport : String) (game : Json),
        savePrediction db sport game = ()) ∧
    (∀ (db1 db2 : String → Json → Except String Nat) (sport : String)
        (text : List Char),
        handlerTail db1 sport text = handlerTail db2 sport text) ∧
    (∀ (db : String → Json → Except String Nat) (sport : String)
        (text : List Char) (data : Json) (games : List Json),
        extract text = Except.ok data →
        gamesIterable (data.getField "games") = some games →
        handlerTail db sport text = HandlerResp.success data) := by
  refine ⟨fun db sport game => rfl, ?_, ?_⟩
  · intro db1 db2 sport text
    unfold handlerTail
    cases extract text with
    | error msg => rfl
    | ok data =>
      cases gamesIterable (data.getField "games") with
      | none => rfl
      | some games => rfl
  · intro db sport text data games h1 h2
    simp [handlerTail, h1, h2]

/-- Witness for C9: with a database that rejects every insert, a bundle with
one game is still returned with success. -/
theorem C9_persistence_failure_swallowed_witness :
    savePrediction (fun _ _ => Except.error "connection refused") "nba"
      (Json.obj []) = () ∧
    handlerTail (fun _ _ => Except.error "connection refused") "nba"
        ("\x7b\"games\": [\x7b\x7d]\x7d".toList) =
      handlerTail (fun _ _ => Except.ok 1) "nba"
        ("\x7b\"games\": [\x7b\x7d]\x7d".toList) ∧
    handlerTail (fun _ _ => Except.error "connection refused") "nba"
        ("\x7b\"games\": [\x7b\x7d]\x7d".toList) =
      HandlerResp.success (Json.obj [("games", Json.arr [Json.obj []])]) :=
  ⟨C9_persistence_failure_swallowed.1 (fun _ _ => Except.error "connection refused")
      "nba" (Json.obj []),
   C9_persistence_failure_swallowed.2.1 (fun _ _ => Except.error "connection refused")
      (fun _ _ => Except.ok 1) "nba" _,
   C9_persistence_failure_swallowed.2.2 (fun _ _ => Except.error "connection refused")
      "nba" _ (Json.obj [("games", Json.arr [Json.obj []])]) [Json.obj []] rfl rfl⟩

/-! ### C7: failure cases of extraction -/

/-- "The text contains a `{...}` span": some left brace is followed (strictly
later) by some right brace. -/
def hasSpanB : List Char → Bool
  | [] => false
  | c :: rest => (c == cLB && rest.any (fun d => d == cRB)) || hasSpanB rest

lemma hasSpanB_iff_sublist (s : List Char) :
    hasSpanB s = true ↔ List.Sublist [cLB, cRB] s := by
  induction s with
  | nil => simp [hasSpanB]
  | cons c rest ih =>
    simp only [hasSpanB, Bool.or_eq_true, Bool.and_eq_true, beq_iff_eq,
      List.any_eq_true, ih]
    constructor
    · rintro (⟨rfl, d, hd, rfl⟩ | h)
      · exact List.cons_sublist_cons.mpr (List.singleton_sublist.mpr hd)
      · exact h.cons c
    · intro h
      cases h with
      | cons _ h2 => exact Or.inr h2
      | cons₂ _ h2 => exact Or.inl ⟨rfl, cRB, List.singleton_sublist.mp h2, rfl⟩

lemma replTickF_sublist (pat : List Char) :
    ∀ (f : Nat) (s : List Char), List.Sublist (replTickF pat f s) s := by
  intro f
  induction f with
  | zero => intro s; simp [replTickF]
  | succ f ih =>
    intro s
    cases s with
    | nil => simp [replTickF]
    | cons c rest =>
      simp only [replTickF]
      split
      · exact (((ih _).trans (List.dropWhile_sublist _)).trans
          (List.drop_sublist _ _))
      · exact List.cons_sublist_cons.mpr (ih rest)

lemma trimChars_sublist (s : List Char) : List.Sublist (trimChars s) s := by
  unfold trimChars
  have h2 : List.Sublist ((s.dropWhile isWsJS).reverse.dropWhile isWsJS).reverse
      (s.dropWhile isWsJS) := by
    have := (List.dropWhile_sublist (l := (s.dropWhile isWsJS).reverse)
      (p := isWsJS)).reverse
    rwa [List.reverse_reverse] at this
  exact h2.trans (List.dropWhile_sublist _)

lemma preprocess_sublist (raw : List Char) : List.Sublist (preprocess raw) raw := by
  unfold preprocess
  split
  · exact ((replTickF_sublist tickPat _ _).trans
      (replTickF_sublist jsonPat _ _)).trans (trimChars_sublist raw)
  · exact trimChars_sublist raw

lemma dropWhile_head_false {α : Type} (p : α → Bool) :
    ∀ (s : List α) (c : α) (rest : List α), s.dropWhile p = c :: rest →
      p c = false := by
  intro s
  induction s with
  | nil => intro c rest h; cases h
  | cons a t ih =>
    intro c rest h
    rw [List.dropWhile_cons] at h
    by_cases hp : p a = true
    · rw [if_pos hp] at h
      exact ih c rest h
    · rw [if_neg hp] at h
      injection h with h1 h2
      rw [← h1]
      exact Bool.eq_false_iff.mpr hp

lemma extractSpan_eq_none (s : List Char) (h : hasSpanB s = false) :
    extractSpan s = none := by
  cases hdw : s.dropWhile (fun c => c != cLB) with
  | nil => simp [extractSpan, hdw]
  | cons c rest =>
    have hc : c = cLB := by
      simpa using dropWhile_head_false _ s c rest hdw
    have hnot : cRB ∉ rest := by
      intro hmem
      have hcr : List.Sublist (cLB :: rest) s := by
        rw [← hc, ← hdw]
        exact List.dropWhile_sublist _
      have hsub : List.Sublist [cLB, cRB] s :=
        (List.cons_sublist_cons.mpr (List.singleton_sublist.mpr hmem)).trans hcr
      rw [(hasSpanB_iff_sublist s).mpr hsub] at h
      cases h
    have hall : ∀ x ∈ rest.reverse ++ [c], (x != cRB) = true := by
      intro x hx
      rcases List.mem_append.mp hx with hx | hx
      · rw [List.mem_reverse] at hx
        simp only [bne_iff_ne, ne_eq]
        intro he
        exact hnot (he ▸ hx)
      · rcases List.mem_singleton.mp hx with rfl
        rw [hc]; decide
    have hdr : (rest.reverse ++ [c]).dropWhile (fun d => d != cRB) = [] :=
      List.dropWhile_eq_nil_iff.mpr hall
    simp [extractSpan, hdw, hdr]

/-- C7: extraction fails for every input whose text has no left brace
followed by a right brace, and fails for every input whose extracted
first-brace-to-last-brace span is not accepted by `JSON.parse`; no partial or
repaired result is produced in either case. -/
theorem C7_extraction_failures :
    (∀ raw : List Char, hasSpanB raw = false →
        extract raw = Except.error "No JSON found in response") ∧
    (∀ (raw sp : List Char), extractSpan (preprocess raw) = some sp →
        jsonParse sp = none →
        extract raw = Except.error "JSON.parse SyntaxError") := by
  constructor
  · intro raw h
    have hpre : hasSpanB (preprocess raw) = false := by
      cases hh : hasSpanB (preprocess raw) with
      | false => rfl
      | true =>
        have h2 : List.Sublist [cLB, cRB] raw :=
          ((hasSpanB_iff_sublist _).mp hh).trans (preprocess_sublist raw)
        rw [(hasSpanB_iff_sublist raw).mpr h2] at h
        cases h
    simp [extract, extractSpan_eq_none _ hpre]
  · intro raw sp h1 h2
    simp [extract, h1, h2]

/-- Witness for C7: a brace-free text fails with the no-payload error, and a
text whose brace span is not JSON fails with the parse error. -/
theorem C7_extraction_failures_witness :
    extract ("no braces here".toList) = Except.error "No JSON found in response" ∧
    extract ("\x7b bad \x7d".toList) = Except.error "JSON.parse SyntaxError" :=
  ⟨C7_extraction_failures.1 ("no braces here".toList) (by decide),
   C7_extraction_failures.2 ("\x7b bad \x7d".toList) ("\x7b bad \x7d".toList)
     rfl rfl⟩

/-! ### C5: fenced versus unfenced extraction -/

/-- The fenced form of an oracle payload: three backticks, a `json` tag, a
newline, the payload, a newline, and a closing fence. -/
def fenceWrap (s : List Char) : List Char :=
  jsonPat ++ '\n' :: (s ++ '\n' :: tickPat)

/-- A fence pattern (` ``` ` possibly followed by a tag) cannot match at a
position inside `s` when scanning `s ++ '\n' :: rest0`, provided no triple
backtick occurs in `s`: a match spanning the junction would need a backtick
where the `'\n'` sits. -/
lemma not_pat_prefix_junction (q rest0 : List Char) (c : Char) (s' : List Char)
    (hs : ¬ tickPat <:+: (c :: s')) :
    ¬ ((tickPat ++ q).isPrefixOf (c :: (s' ++ '\n' :: rest0)) = true) := by
  intro hpre
  rw [ List.isPrefixOf_iff_prefix] at hpre
  obtain ⟨u, hu⟩ := hpre
  match s' with
  | [] =>
    simp only [tickPat, List.cons_append, List.nil_append, List.append_assoc] at hu
    injection hu with h1 hu
    injection hu with h2 hu
    exact absurd h2 (by decide)
  | [a] =>
    simp only [tickPat, List.cons_append, List.nil_append, List.append_assoc] at hu
    injection hu with h1 hu
    injection hu with h2 hu
    injection hu with h3 hu
    exact absurd h3 (by decide)
  | a :: b :: s'' =>
    simp only [tickPat, List.cons_append, List.nil_append, List.append_assoc] at hu
    injection hu with h1 hu
    injection hu with h2 hu
    injection hu with h3 hu
    subst h1
    subst h2
    subst h3
    exact hs (List.IsPrefix.isInfix ⟨s'', rfl⟩)

/-- One scanning step at a position where the pattern matches. -/
lemma replTickF_step_match (pat : List Char) (f : Nat) (c : Char)
    (rest : List Char) (h : pat.isPrefixOf (c :: rest) = true) :
    replTickF pat (f + 1) (c :: rest) =
      replTickF pat f (dropWs (List.drop pat.length (c :: rest))) := by
  simp only [replTickF, h, if_true]

/-- Scanning `s ++ '\n' :: rest0` for a fence pattern copies all of `s`
unchanged when `s` contains no triple backtick. -/
lemma replTickF_append (q rest0 : List Char) :
    ∀ (s : List Char) (f : Nat), ¬ tickPat <:+: s →
      replTickF (tickPat ++ q) (s.length + f) (s ++ '\n' :: rest0) =
        s ++ replTickF (tickPat ++ q) f ('\n' :: rest0) := by
  intro s
  induction s with
  | nil =>
    intro f _
    simp
  | cons c s' ih =>
    intro f hs
    have hs' : ¬ tickPat <:+: s' := fun hinf => hs (List.infix_cons hinf)
    have hlen : (c :: s').length + f = (s'.length + f) + 1 := by
      simp only [List.length_cons]
      omega
    rw [hlen, List.cons_append]
    simp only [replTickF]
    rw [if_neg (not_pat_prefix_junction q rest0 c s' hs)]
    rw [List.cons_append]
    exact congrArg (c :: ·) (ih f hs')

/-- Trimming is the identity on a text with non-whitespace first and last
characters. -/
lemma trimChars_eq_self (s : List Char) (a b : Char)
    (hh : s.head? = some a) (ha : isWsJS a = false)
    (hl : s.getLast? = some b) (hb : isWsJS b = false) :
    trimChars s = s := by
  unfold trimChars
  have h1 : s.dropWhile isWsJS = s := by
    cases s with
    | nil => rfl
    | cons x t =>
      simp only [List.head?_cons, Option.some.injEq] at hh
      rw [List.dropWhile_cons, hh, ha]
      simp
  rw [h1]
  have h2 : s.reverse.dropWhile isWsJS = s.reverse := by
    cases hrev : s.reverse with
    | nil => rfl
    | cons x t =>
      have hx : s.reverse.head? = some b := by
        rw [List.head?_reverse]
        exact hl
      rw [hrev] at hx
      simp only [List.head?_cons, Option.some.injEq] at hx
      rw [List.dropWhile_cons, hx, hb]
      simp
  rw [h2, List.reverse_reverse]

lemma extractSpan_eq_some (x : List Char) (c : Char) (rest : List Char)
    (d : Char) (rev : List Char)
    (h1 : x.dropWhile (fun e => e != cLB) = c :: rest)
    (h2 : (c :: rest).reverse.dropWhile (fun e => e != cRB) = d :: rev) :
    extractSpan x = some (d :: rev).reverse := by
  unfold extractSpan
  rw [h1]
  change (match (c :: rest).reverse.dropWhile (fun e => e != cRB) with
    | [] => none
    | d :: rev => some (d :: rev).reverse) = some (d :: rev).reverse
  rw [h2]

/-- The brace span of a brace-delimited text followed by brace-free trailing
characters is the text itself. -/
lemma extractSpan_append_right (s2 t : List Char)
    (hl : (cLB :: s2).getLast? = some cRB)
    (ht : ∀ x ∈ t, (x != cRB) = true) :
    extractSpan ((cLB :: s2) ++ t) = some (cLB :: s2) := by
  obtain ⟨w, hrev⟩ : ∃ w, (cLB :: s2).reverse = cRB :: w := by
    cases hr : (cLB :: s2).reverse with
    | nil => simp at hr
    | cons y w =>
      have hy : (cLB :: s2).reverse.head? = some cRB := by
        rw [List.head?_reverse]
        exact hl
      rw [hr] at hy
      simp only [List.head?_cons, Option.some.injEq] at hy
      exact ⟨w, by rw [hy]⟩
  have e1 : ((cLB :: s2) ++ t).dropWhile (fun e => e != cLB) =
      cLB :: (s2 ++ t) := by
    rw [List.cons_append, List.dropWhile_cons]
    simp
  have hsplit : (cLB :: (s2 ++ t)).reverse = t.reverse ++ (cRB :: w) := by
    rw [← hrev]
    rw [show cLB :: (s2 ++ t) = (cLB :: s2) ++ t from rfl]
    exact List.reverse_append _ _
  have e2 : (cLB :: (s2 ++ t)).reverse.dropWhile (fun e => e != cRB) =
      cRB :: w := by
    rw [hsplit]
    rw [List.dropWhile_append_of_pos
      (fun a ha => ht a (List.mem_reverse.mp ha))]
    rw [List.dropWhile_cons]
    simp
  have hfin := extractSpan_eq_some ((cLB :: s2) ++ t) cLB (s2 ++ t) cRB w e1 e2
  rw [hfin, ← hrev, List.reverse_reverse]

/-- C5 counterexample payload: a JSON object whose only string value contains
a triple backtick. -/
def sTicksCx : List Char :=
  "\x7b\"a\":\"".toList ++ (cBT :: cBT :: cBT :: []) ++ " b\"\x7d".toList

/-- C5 counterexample: for the JSON object serialization `{"a":"``` b"}` the
fenced and unfenced extractions disagree — the global fence-stripping regex
also deletes the triple backtick (and the following space) inside the string
literal, so the fenced form extracts `{"a":"b"}`. -/
theorem C5_fence_counterexample :
    extract (fenceWrap sTicksCx) =
      Except.ok (Json.obj [("a", Json.str "b")]) ∧
    extract sTicksCx =
      Except.ok (Json.obj [("a", Json.str (String.mk
        (cBT :: cBT :: cBT :: ' ' :: 'b' :: [])))]) ∧
    (Except.ok (Json.obj [("a", Json.str "b")]) : Except String Json) ≠
      Except.ok (Json.obj [("a", Json.str (String.mk
        (cBT :: cBT :: cBT :: ' ' :: 'b' :: [])))]) := by
  refine ⟨rfl, rfl, ?_⟩
  intro h
  simp only [Except.ok.injEq, Json.obj.injEq, List.cons.injEq, Prod.mk.injEq,
    Json.str.injEq, and_true, true_and] at h
  exact absurd h (by decide)

/-- C5 (amended): for every JSON object serialization `s` (beginning with a
left brace and ending with a right brace) that contains no triple-backtick
substring, extraction of the fenced text and of the unfenced text yield
identical results.  (The counterexample shows the restriction is necessary:
a `` ``` `` inside `s` is destroyed by the global fence-stripping.) -/
theorem C5_fence_roundtrip_amended (s : List Char)
    (hhead : s.head? = some cLB) (hlast : s.getLast? = some cRB)
    (hticks : ¬ tickPat <:+: s) :
    extract (fenceWrap s) = extract s := by
  obtain ⟨s2, rfl⟩ : ∃ s2, s = cLB :: s2 := by
    cases s with
    | nil => cases hhead
    | cons a t =>
      simp only [List.head?_cons, Option.some.injEq] at hhead
      exact ⟨t, by rw [hhead]⟩
  -- unfenced side
  have htrimS : trimChars (cLB :: s2) = cLB :: s2 :=
    trimChars_eq_self _ cLB cRB rfl (by decide) hlast (by decide)
  have hnofence : ¬ (tickPat.isPrefixOf (cLB :: s2) = true) := by
    intro hb
    rw [ List.isPrefixOf_iff_prefix] at hb
    obtain ⟨u, hu⟩ := hb
    simp only [tickPat, List.cons_append] at hu
    injection hu with h1 hu
    exact absurd h1 (by decide)
  have hplain : preprocess (cLB :: s2) = cLB :: s2 := by
    unfold preprocess
    rw [htrimS, if_neg hnofence]
  have hspanPlain : extractSpan (cLB :: s2) = some (cLB :: s2) := by
    have h := extractSpan_append_right s2 [] hlast (fun x hx => absurd hx (by simp))
    rwa [List.append_nil] at h
  -- fenced side: trimming is the identity
  have hlastF : (fenceWrap (cLB :: s2)).getLast? = some cBT := by
    rw [show fenceWrap (cLB :: s2) =
      (jsonPat ++ '\n' :: (cLB :: s2)) ++ ('\n' :: tickPat) from by
        simp [fenceWrap]]
    rw [List.getLast?_append_of_ne_nil _ (by simp)]
    decide
  have htrimF : trimChars (fenceWrap (cLB :: s2)) = fenceWrap (cLB :: s2) :=
    trimChars_eq_self (fenceWrap (cLB :: s2)) cBT cBT rfl (by decide)
      hlastF (by decide)
  have hpreF : tickPat.isPrefixOf (fenceWrap (cLB :: s2)) = true := by
    rw [ List.isPrefixOf_iff_prefix]
    exact ⟨'j' :: 's' :: 'o' :: 'n' :: '\n' :: ((cLB :: s2) ++ '\n' :: tickPat), rfl⟩
  -- first stripping pass eats the opening fence and tag
  have hlen1 : (fenceWrap (cLB :: s2)).length = ((cLB :: s2).length + 11) + 1 := by
    simp only [fenceWrap, jsonPat, tickPat, List.length_append, List.length_cons,
      List.length_nil]
    omega
  have hdropWs : dropWs ('\n' :: ((cLB :: s2) ++ '\n' :: tickPat)) =
      (cLB :: s2) ++ '\n' :: tickPat := by
    unfold dropWs
    rw [List.dropWhile_cons, if_pos (by decide)]
    rw [List.cons_append, List.dropWhile_cons, if_neg (by decide)]
  have hstrip1 : stripTicksJson (fenceWrap (cLB :: s2)) =
      (cLB :: s2) ++ '\n' :: tickPat := by
    unfold stripTicksJson
    rw [hlen1]
    rw [show fenceWrap (cLB :: s2) = cBT :: (cBT :: cBT :: 'j' :: 's' :: 'o' ::
      'n' :: ('\n' :: ((cLB :: s2) ++ '\n' :: tickPat))) from rfl]
    rw [replTickF_step_match jsonPat ((cLB :: s2).length + 11) cBT
      (cBT :: cBT :: 'j' :: 's' :: 'o' :: 'n' ::
        ('\n' :: ((cLB :: s2) ++ '\n' :: tickPat)))
      (by
        rw [ List.isPrefixOf_iff_prefix]
        exact ⟨'\n' :: ((cLB :: s2) ++ '\n' :: tickPat), rfl⟩)]
    rw [show List.drop jsonPat.length (cBT :: (cBT :: cBT :: 'j' :: 's' :: 'o' ::
      'n' :: ('\n' :: ((cLB :: s2) ++ '\n' :: tickPat)))) =
      '\n' :: ((cLB :: s2) ++ '\n' :: tickPat) from rfl]
    rw [hdropWs]
    rw [show jsonPat = tickPat ++ ('j' :: 's' :: 'o' :: 'n' :: []) from rfl]
    rw [replTickF_append ('j' :: 's' :: 'o' :: 'n' :: []) tickPat (cLB :: s2) 11 hticks]
    rw [show replTickF (tickPat ++ ('j' :: 's' :: 'o' :: 'n' :: [])) 11
      ('\n' :: tickPat) = '\n' :: tickPat from by decide]
  -- second stripping pass eats the closing fence
  have hlen2 : ((cLB :: s2) ++ '\n' :: tickPat).length = (cLB :: s2).length + 4 := by
    simp only [tickPat, List.length_append, List.length_cons, List.length_nil]
  have hstrip2 : stripTicks ((cLB :: s2) ++ '\n' :: tickPat) =
      (cLB :: s2) ++ ['\n'] := by
    unfold stripTicks
    rw [hlen2]
    have happ := replTickF_append [] tickPat (cLB :: s2) 4 hticks
    rw [List.append_nil] at happ
    rw [happ]
    rw [show replTickF tickPat 4 ('\n' :: tickPat) = ['\n'] from by decide]
  have hpreFfull : preprocess (fenceWrap (cLB :: s2)) = (cLB :: s2) ++ ['\n'] := by
    unfold preprocess
    rw [htrimF, if_pos hpreF, hstrip1, hstrip2]
  have hspanF : extractSpan ((cLB :: s2) ++ ['\n']) = some (cLB :: s2) :=
    extractSpan_append_right s2 ['\n'] hlast (by
      intro x hx
      rcases List.mem_singleton.mp hx with rfl
      decide)
  unfold extract
  rw [hpreFfull, hplain, hspanF, hspanPlain]

/-- Witness for C5 (amended): the payload `{"x": true}` extracts identically
fenced and unfenced. -/
theorem C5_fence_roundtrip_amended_witness :
    extract (fenceWrap ("\x7b\"x\": true\x7d".toList)) =
      extract ("\x7b\"x\": true\x7d".toList) :=
  C5_fence_roundtrip_amended ("\x7b\"x\": true\x7d".toList) rfl rfl (by decide)

end SportsAgent
